import Mathlib

/-!
Shallow embedding of the configurer package (control.go, notify.go).

Configuration is an opaque interface value in the source; we model it as an
arbitrary type parameter `Cfg`, and a possibly-nil interface value as
`Option Cfg`. Go errors are modelled as `String` messages; a fallible call
returns `Except String _` and a call that returns `error` (possibly nil)
returns `Option String`. Logging calls have no observable effect on state and
are dropped from the embedding. The structural differ (github.com/r3labs/diff,
an external dependency of the Controller) is passed in as a function argument
`diffFn`; a diff change record is modelled by its `Path []string` component,
the only part the Controller reads.
-/

namespace Configurer

/-- Control (control.go lines 13-20): current and previous configuration
snapshots plus the derived changelog. The mutex and logger fields carry no
state visible to the embedded operations and are dropped. -/
structure Control (Cfg : Type) where
  changed : List String
  current : Option Cfg
  previous : Option Cfg
deriving DecidableEq

/-- readConfig (control.go lines 46-81). The loader call result is passed in
as `load`; the differ as `diffFn`. Returns the updated state and the error
returned to the caller (none on success). On load error the state is returned
untouched and the error is wrapped. On diff error the failure is only logged
and the changed list keeps its prior value. -/
def readConfig {Cfg : Type}
    (diffFn : Option Cfg → Option Cfg → Except String (List (List String)))
    (load : Except String (Option Cfg)) (ctrl : Control Cfg) :
    Control Cfg × Option String :=
  match load with
  | .error err => (ctrl, some ("loading configuration: " ++ err))
  | .ok config =>
    let ctrl1 : Control Cfg :=
      { ctrl with previous := ctrl.current, current := config }
    match ctrl1.previous with
    | none => ({ ctrl1 with changed := ["*"] }, none)
    | some _ =>
      match diffFn ctrl1.previous ctrl1.current with
      | .error _ => (ctrl1, none)
      | .ok changelog =>
        if changelog.length < 1 then ({ ctrl1 with changed := [] }, none)
        else
          ({ ctrl1 with
              changed := changelog.map (fun path => String.intercalate "." path) },
            none)

/-- Config (control.go lines 88-90): returns the current configuration. -/
def Config {Cfg : Type} (ctrl : Control Cfg) : Option Cfg :=
  ctrl.current

/-- strings.HasPrefix from the Go standard library: s begins with pre.
Byte-wise in Go; for valid UTF-8 this agrees with the character-wise test. -/
def hasPre (s pre : String) : Bool :=
  pre.data.isPrefixOf s.data

/-- strings.HasSuffix from the Go standard library: s ends with suf. -/
def hasSuf (s suf : String) : Bool :=
  suf.data.isSuffixOf s.data

/-- strings.CutSuffix from the Go standard library, as used by IsChanged.
Returns the string with the suffix removed when the suffix is present
(the boolean of the Go version is modelled by `Option`). The suffix used by
IsChanged is the two ASCII characters `.` and `*`, for which the byte-based
Go slicing and the character-based `dropRight` agree. -/
def cutSuffix (s sfx : String) : Option String :=
  if hasSuf s sfx then some (s.dropRight sfx.length) else none

/-- IsChanged (control.go lines 101-117). The source selects a match operation
`op`: exact equality by default, or a HasPrefix test against the stripped
pattern followed by `.` when the query ends with the wildcard suffix; it then
scans the changed list, where an entry equal to the sentinel matches
unconditionally. -/
def IsChanged {Cfg : Type} (ctrl : Control Cfg) (item : String) : Bool :=
  match cutSuffix item ".*" with
  | none => ctrl.changed.any (fun entry => entry == "*" || item == entry)
  | some snippy =>
    ctrl.changed.any (fun entry => entry == "*" || hasPre entry (snippy ++ "."))

/-- Notifier (notify.go lines 26-34): registries of Updateable services and
Aborters, and the abort latch `wantdown`. Services and aborters are identified
by natural numbers; their behaviour is supplied at the call sites. The context,
logger and watcher fields carry no state visible to the embedded operations
and are dropped. Note the source structure has no field recording whether an
initial Notify has completed. -/
structure Notifier where
  services : List Nat
  aborters : List Nat
  wantdown : Bool
deriving DecidableEq

/-- One observable call made by the Notifier to a collaborator:
an UpdateConfig call on the configuration value itself, an UpdateConfig call
on a registered service, or an Abort call on a registered aborter. -/
inductive NCall where
  | cfgUpdate : NCall
  | update : Nat → NCall
  | abort : Nat → String → NCall
deriving DecidableEq

/-- RegisterServices (notify.go lines 46-48): appends to the service registry.
The second component records the UpdateConfig calls performed during
registration; the source body performs none (it is a bare append). -/
def RegisterServices (n : Notifier) (svc : List Nat) : Notifier × List NCall :=
  ({ n with services := n.services ++ svc }, [])

/-- RegisterAborters (notify.go lines 51-53): appends to the aborter registry. -/
def RegisterAborters (n : Notifier) (svc : List Nat) : Notifier :=
  { n with aborters := n.aborters ++ svc }

/-- The service loop of Notify (notify.go lines 64-77). `upd` gives each
service's UpdateConfig result (none on success). Returns the calls made,
the final value of the wantdown latch, and the returned error. On the first
failing service: when the latch is clear it is set and the aborter loop runs,
whose body unconditionally returns after the first aborter; either way the
error is returned and later services are not reached. -/
def notifyLoop (upd : Nat → Option String) (aborters : List Nat)
    (wantdown : Bool) : List Nat → List NCall × Bool × Option String
  | [] => ([], wantdown, none)
  | svc :: rest =>
    match upd svc with
    | none =>
      let r := notifyLoop upd aborters wantdown rest
      (NCall.update svc :: r.1, r.2.1, r.2.2)
    | some err =>
      if wantdown then ([NCall.update svc], wantdown, some err)
      else
        match aborters with
        | [] => ([NCall.update svc], true, some err)
        | ab :: _ => ([NCall.update svc, NCall.abort ab err], true, some err)

/-- Notify (notify.go lines 60-80). `cfgUpd` is whether the current
configuration value itself implements Updateable (its own update result is
ignored by the source). Returns the calls made, the new Notifier state and
the returned error. -/
def Notify (cfgUpd : Bool) (upd : Nat → Option String) (n : Notifier) :
    List NCall × Notifier × Option String :=
  let pre := if cfgUpd then [NCall.cfgUpdate] else []
  let r := notifyLoop upd n.aborters n.wantdown n.services
  (pre ++ r.1, { n with wantdown := r.2.1 }, r.2.2)

/-- modify (notify.go lines 134-140): on a write event, readConfig is called
(its error only logged), then Notify is called unconditionally (its result
discarded). Returns the new Control, the new Notifier, and the calls made by
the Notify dispatch. -/
def modifyRun {Cfg : Type}
    (diffFn : Option Cfg → Option Cfg → Except String (List (List String)))
    (load : Except String (Option Cfg)) (cfgUpd : Bool)
    (upd : Nat → Option String) (ctrl : Control Cfg) (n : Notifier) :
    Control Cfg × Notifier × List NCall :=
  let r := readConfig diffFn load ctrl
  let s := Notify cfgUpd upd n
  (r.1, s.2.1, s.1)

/-- Truncation of math.Pow(1.5, n) to an integer, as performed by
readdWatcher via int64(math.Pow(float64(1.5), float64(n))). Mathematically
the truncated value is the floor of 3 to the n over 2 to the n, which natural
division computes; 1.5 and its powers for the attempt range the code can reach
are exactly representable as binary doubles, so the float computation agrees. -/
def pow15floor (n : Nat) : Nat :=
  3 ^ n / 2 ^ n

/-- The backoff delay of readdWatcher (notify.go lines 153-155), in
nanoseconds: baseDelay is 500 * time.Millisecond, i.e. 500 * 1000000 ns, and
the delay is baseDelay times the truncated power. -/
def delayNs (attempt : Nat) : Nat :=
  500 * 1000000 * pow15floor attempt

/-- One observable step of the watch-loop remove handling: a re-add attempt
on the watch resource (watcher.Add) that succeeded or failed, the scheduling
of a deferred retry after a delay in nanoseconds (time.AfterFunc), giving up
on watching (the warn-and-return branch), a readConfig call, and a Notify
call. -/
inductive Step where
  | attemptOk : Nat → Step
  | attemptFail : Nat → Step
  | retryAfter : Nat → Step
  | disabled : Step
  | reloadConfig : Step
  | notifyCall : Step
deriving DecidableEq

/-- The closure returned by readdWatcher (notify.go lines 152-167) for a given
attempt number, together with all the deferred retries it transitively
schedules, as the sequence of steps they perform. `addOk k` tells whether
watcher.Add succeeds when invoked at attempt number k. The closure body:
attempt the re-add; on success do nothing more; on failure, give up when the
attempt number exceeds 10, otherwise schedule the closure for the next attempt
after the delay computed for the current attempt. -/
def readdRun (addOk : Nat → Bool) (attempt : Nat) : List Step :=
  if addOk attempt then [Step.attemptOk attempt]
  else if h : attempt > 10 then [Step.attemptFail attempt, Step.disabled]
  else
    Step.attemptFail attempt :: Step.retryAfter (delayNs attempt) ::
      readdRun addOk (attempt + 1)
termination_by 11 - attempt
decreasing_by omega

/-- Only the synchronous body of the readdWatcher closure for one attempt:
the steps performed before control returns to the caller (deferred retries
excluded). -/
def readdSyncBody (addOk : Nat → Bool) (attempt : Nat) : List Step :=
  if addOk attempt then [Step.attemptOk attempt]
  else if attempt > 10 then [Step.attemptFail attempt, Step.disabled]
  else [Step.attemptFail attempt, Step.retryAfter (delayNs attempt)]

/-- The deferred continuation of the readdWatcher closure for one attempt:
the steps performed later by the retry chain it scheduled, if any. -/
def readdDeferred (addOk : Nat → Bool) (attempt : Nat) : List Step :=
  if addOk attempt then []
  else if attempt > 10 then []
  else readdRun addOk (attempt + 1)

/-- replace (notify.go lines 142-150): on a remove event, the closure
readdWatcher(0) is invoked synchronously, then readConfig is called (its error
only logged), then Notify is called unconditionally; any retries the closure
scheduled run later as deferred tasks (their first delay is at least 500 ms,
after the synchronous part has finished). The list is the observable step
sequence of the whole remove handling. -/
def replaceRun (addOk : Nat → Bool) : List Step :=
  readdSyncBody addOk 0 ++ [Step.reloadConfig, Step.notifyCall] ++
    readdDeferred addOk 0

/-! Helper lemmas shared by the claim theorems. -/

/-- Unfolding equation of readdRun in plain if-then-else form. -/
lemma readdRun_eq (addOk : Nat → Bool) (attempt : Nat) :
    readdRun addOk attempt =
      if addOk attempt then [Step.attemptOk attempt]
      else if attempt > 10 then [Step.attemptFail attempt, Step.disabled]
      else
        Step.attemptFail attempt :: Step.retryAfter (delayNs attempt) ::
          readdRun addOk (attempt + 1) := by
  rw [readdRun]
  simp

/-- The readdWatcher retry chain performs no readConfig and no Notify call,
from any attempt number onward. -/
lemma readd_no_dispatch (addOk : Nat → Bool) :
    ∀ a, Step.reloadConfig ∉ readdRun addOk a ∧
      Step.notifyCall ∉ readdRun addOk a := by
  intro a
  generalize hm : 11 - a = m
  induction m generalizing a with
  | zero =>
    rw [readdRun_eq]
    have ha : a > 10 := by omega
    cases h0 : addOk a <;> simp [ha]
  | succ k ih =>
    rw [readdRun_eq]
    have ha : ¬ a > 10 := by omega
    cases h0 : addOk a
    · rcases ih (a + 1) (by omega) with ⟨ih1, ih2⟩
      simp [ha, List.mem_cons, ih1, ih2]
    · simp

/-- When every service in the list succeeds, the Notify loop updates each of
them in list order, leaves the latch alone and returns no error. -/
lemma notifyLoop_all_ok (upd : Nat → Option String) (ab : List Nat) (wd : Bool) :
    ∀ l : List Nat, (∀ t ∈ l, upd t = none) →
      notifyLoop upd ab wd l = (l.map NCall.update, wd, none) := by
  intro l
  induction l with
  | nil => intro _; rfl
  | cons x xs ih =>
    intro h
    have hx : upd x = none := h x (by simp)
    have hxs := ih (fun t ht => h t (by simp [ht]))
    simp [notifyLoop, hx, hxs]

/-! The claims. -/

/-- Claim C1 (code bug, evaluation at the failing input). With services
`[0, 9]` where service 0 fails with error `boom`, aborters `[1, 2]` and a
clear latch: service 9 is not invoked, the latch is set, the error is
returned, but only the first aborter receives an Abort call — aborter 2 is
never invoked, because the source returns from inside the aborter loop after
its first iteration. The claim requires every registered aborter to be
invoked exactly once. -/
theorem C1_notify_aborts_first_only :
    Notify false (fun _ => some "boom") ⟨[0, 9], [1, 2], false⟩
      = ([NCall.update 0, NCall.abort 1 "boom"], ⟨[0, 9], [1, 2], true⟩,
          some "boom")
    ∧ NCall.abort 2 "boom" ∉
        (Notify false (fun _ => some "boom") ⟨[0, 9], [1, 2], false⟩).1
    ∧ NCall.update 9 ∉
        (Notify false (fun _ => some "boom") ⟨[0, 9], [1, 2], false⟩).1 :=
  ⟨rfl, by decide, by decide⟩

/-- Claim C2 (code bug, evaluation at the failing input). A write event where
the reload leaves an empty change list (the fresh configuration equals the
previous one, the differ reports no changes): the resulting ChangeSet is
empty, yet the registered consumer 0 is still sent an update, because modify
calls Notify unconditionally with no change-set gate. The claim requires
dispatch to be skipped entirely. -/
theorem C2_modify_dispatch_not_gated :
    (@modifyRun Nat (fun _ _ => Except.ok []) (Except.ok (some 1))
        false (fun _ => none) ⟨["X"], some 1, some 0⟩ ⟨[0], [], false⟩).1.changed
      = []
    ∧ (@modifyRun Nat (fun _ _ => Except.ok []) (Except.ok (some 1))
        false (fun _ => none) ⟨["X"], some 1, some 0⟩ ⟨[0], [], false⟩).2.2
      = [NCall.update 0] :=
  ⟨rfl, rfl⟩

/-- Claim C3 (code bug, evaluation at the failing input). A Notify call
completes successfully (returned error is none) on a notifier with service 0;
registering service 5 afterwards only appends it to the registry and performs
no UpdateConfig call at all — there is no backfill notification and the
Notifier structure has no initial-sent flag to gate one. The claim requires
the newly registered consumer to be sent the current configuration
immediately. -/
theorem C3_register_services_no_backfill :
    (Notify false (fun _ => none) ⟨[0], [], false⟩).2.2 = none
    ∧ RegisterServices (Notify false (fun _ => none) ⟨[0], [], false⟩).2.1 [5]
        = (⟨[0, 5], [], false⟩, []) :=
  ⟨rfl, rfl⟩

/-- Claim C6 (confirmed). When the loader fails, readConfig returns the
wrapped load error and the state — changed list, current and previous
snapshots — is exactly the input state. -/
theorem C6_load_error_no_mutation {Cfg : Type}
    (diffFn : Option Cfg → Option Cfg → Except String (List (List String)))
    (ctrl : Control Cfg) (e : String) :
    readConfig diffFn (Except.error e) ctrl
      = (ctrl, some ("loading configuration: " ++ e)) :=
  rfl

/-- Claim C4 (confirmed). For every query p and every changed list:
IsChanged is true exactly when the list holds the sentinel entry, or — when p
does not end in the wildcard suffix — an entry equal to p, or — when p ends
in the two-character suffix with stripped q — an entry beginning with q
followed by a dot. Matching is a HasPrefix test, not substring: the query
Foo wildcard matches the entry Foo.Bar but not the entry FooBar. -/
theorem C4_isChanged_spec :
    (∀ (changed : List String) (p : String),
      @IsChanged Nat ⟨changed, none, none⟩ p = true ↔
        "*" ∈ changed
        ∨ (cutSuffix p ".*" = none ∧ p ∈ changed)
        ∨ (∃ q, cutSuffix p ".*" = some q ∧
            ∃ e ∈ changed, hasPre e (q ++ ".") = true))
    ∧ @IsChanged Nat ⟨["Foo.Bar"], none, none⟩ "Foo.*" = true
    ∧ @IsChanged Nat ⟨["FooBar"], none, none⟩ "Foo.*" = false := by
  refine ⟨?_, by decide, by decide⟩
  intro changed p
  cases hq : cutSuffix p ".*" with
  | none =>
    simp only [IsChanged, hq, List.any_eq_true, Bool.or_eq_true, beq_iff_eq,
      reduceCtorEq, false_and, exists_false, or_false, true_and]
    constructor
    · rintro ⟨x, hx, rfl | rfl⟩
      · exact Or.inl hx
      · exact Or.inr hx
    · rintro (h | h)
      · exact ⟨"*", h, Or.inl rfl⟩
      · exact ⟨p, h, Or.inr rfl⟩
  | some q =>
    simp only [IsChanged, hq, List.any_eq_true, Bool.or_eq_true, beq_iff_eq,
      reduceCtorEq, false_and, Option.some.injEq]
    constructor
    · rintro ⟨x, hx, rfl | hpre⟩
      · exact Or.inl hx
      · exact Or.inr (Or.inr ⟨q, rfl, x, hx, hpre⟩)
    · rintro (h | h | ⟨r, rfl, x, hx, hpre⟩)
      · exact ⟨"*", h, Or.inl rfl⟩
      · exact h.elim
      · exact ⟨x, hx, Or.inr hpre⟩

/-- Claim C5 (confirmed). When the loader succeeds but the differ fails,
readConfig reports success (the failure is only logged), the snapshots have
advanced — previous holds the old current value, current holds the freshly
loaded one — and the changed list keeps exactly its prior, stale value. -/
theorem C5_diff_error_keeps_changeset {Cfg : Type}
    (diffFn : Option Cfg → Option Cfg → Except String (List (List String)))
    (ctrl : Control Cfg) (newCfg : Option Cfg) (c : Cfg) (e : String)
    (hcur : ctrl.current = some c)
    (hdiff : diffFn (some c) newCfg = Except.error e) :
    readConfig diffFn (Except.ok newCfg) ctrl
      = ({ changed := ctrl.changed, current := newCfg, previous := some c },
          none) := by
  obtain ⟨ch, cur, prev⟩ := ctrl
  simp only at hcur
  subst hcur
  simp [readConfig, hdiff]

/-- Witness for claim C5 at a concrete input. -/
theorem C5_diff_error_keeps_changeset_witness :
    @readConfig Nat (fun _ _ => Except.error "boom2")
        (Except.ok (some 2)) ⟨["Old"], some 1, none⟩
      = ({ changed := ["Old"], current := some 2, previous := some 1 },
          none) :=
  C5_diff_error_keeps_changeset (fun _ _ => Except.error "boom2")
    ⟨["Old"], some 1, none⟩ (some 2) 1 "boom2" rfl rfl

/-- Claim C7 counterexample. With re-add failing at every attempt, the full
retry chain from attempt 0: the delay attached to the failure at attempt 1 is
500000000 ns (500 ms), and the delay 750000000 ns — which the claimed formula
500 ms times 1.5 to the attempt number yields at attempt 1 — never occurs,
because the source truncates the power to an integer before multiplying. The
chain gives up after the failure at attempt 11. -/
theorem C7_counterexample_delay :
    readdRun (fun _ => false) 0 =
      [Step.attemptFail 0, Step.retryAfter 500000000,
       Step.attemptFail 1, Step.retryAfter 500000000,
       Step.attemptFail 2, Step.retryAfter 1000000000,
       Step.attemptFail 3, Step.retryAfter 1500000000,
       Step.attemptFail 4, Step.retryAfter 2500000000,
       Step.attemptFail 5, Step.retryAfter 3500000000,
       Step.attemptFail 6, Step.retryAfter 5500000000,
       Step.attemptFail 7, Step.retryAfter 8500000000,
       Step.attemptFail 8, Step.retryAfter 12500000000,
       Step.attemptFail 9, Step.retryAfter 19000000000,
       Step.attemptFail 10, Step.retryAfter 28500000000,
       Step.attemptFail 11, Step.disabled]
    ∧ Step.retryAfter 750000000 ∉ readdRun (fun _ => false) 0 := by
  have h : readdRun (fun _ => false) 0 =
      [Step.attemptFail 0, Step.retryAfter 500000000,
       Step.attemptFail 1, Step.retryAfter 500000000,
       Step.attemptFail 2, Step.retryAfter 1000000000,
       Step.attemptFail 3, Step.retryAfter 1500000000,
       Step.attemptFail 4, Step.retryAfter 2500000000,
       Step.attemptFail 5, Step.retryAfter 3500000000,
       Step.attemptFail 6, Step.retryAfter 5500000000,
       Step.attemptFail 7, Step.retryAfter 8500000000,
       Step.attemptFail 8, Step.retryAfter 12500000000,
       Step.attemptFail 9, Step.retryAfter 19000000000,
       Step.attemptFail 10, Step.retryAfter 28500000000,
       Step.attemptFail 11, Step.disabled] := by
    simp [readdRun, delayNs, pow15floor]
  rw [h]
  exact ⟨rfl, by decide⟩

/-- Claim C7 as amended (the only change the counterexample forces: the delay
for attempt number n is 500 ms times the integer truncation of 1.5 to the n,
written 500 * 1000000 * (3 ^ n / 2 ^ n) nanoseconds with natural division,
instead of 500 ms times the exact power). A failing attempt n with n at most
10 schedules the next attempt as a deferred task with that delay; a failing
attempt with n above 10 logs and gives up permanently, producing no further
steps — and the step type of the model carries no error, matching the source
closure, which returns nothing to any caller. -/
theorem C7_backoff_amended (addOk : Nat → Bool) (n : Nat)
    (hfail : addOk n = false) :
    (n ≤ 10 →
      readdRun addOk n =
        Step.attemptFail n ::
          Step.retryAfter (500 * 1000000 * (3 ^ n / 2 ^ n)) ::
            readdRun addOk (n + 1))
    ∧ (10 < n → readdRun addOk n = [Step.attemptFail n, Step.disabled]) := by
  constructor
  · intro hle
    have hgt : ¬ n > 10 := by omega
    rw [readdRun_eq]
    simp [hfail, hgt, delayNs, pow15floor]
  · intro hgt
    rw [readdRun_eq]
    simp [hfail, hgt]

/-- Witness for claim C7 at a concrete input. -/
theorem C7_backoff_amended_witness :
    (fun (_ : Nat) => false) 5 = false ∧ 5 ≤ 10
    ∧ readdRun (fun _ => false) 5 =
        Step.attemptFail 5 ::
          Step.retryAfter (500 * 1000000 * (3 ^ 5 / 2 ^ 5)) ::
            readdRun (fun _ => false) 6 :=
  ⟨rfl, by decide,
    (C7_backoff_amended (fun _ => false) 5 rfl).1 (by decide)⟩

/-- Claim C8 counterexample. With re-add failing at every attempt, the remove
handling contains no successful re-add step at all, yet the readConfig and
Notify steps are still performed — refuting the claim that the reload and
notification sequence is performed upon eventual re-add success. -/
theorem C8_counterexample_replace :
    Step.reloadConfig ∈ replaceRun (fun _ => false)
    ∧ Step.notifyCall ∈ replaceRun (fun _ => false)
    ∧ (replaceRun (fun _ => false)).countP
        (fun s => match s with | Step.attemptOk _ => true | _ => false)
      = 0 := by
  have h : replaceRun (fun _ => false) =
      [Step.attemptFail 0, Step.retryAfter 500000000,
       Step.reloadConfig, Step.notifyCall] ++ readdRun (fun _ => false) 1 := by
    simp [replaceRun, readdSyncBody, readdDeferred, delayNs, pow15floor]
  have h1 : readdRun (fun _ => false) 1 =
      [Step.attemptFail 1, Step.retryAfter 500000000,
       Step.attemptFail 2, Step.retryAfter 1000000000,
       Step.attemptFail 3, Step.retryAfter 1500000000,
       Step.attemptFail 4, Step.retryAfter 2500000000,
       Step.attemptFail 5, Step.retryAfter 3500000000,
       Step.attemptFail 6, Step.retryAfter 5500000000,
       Step.attemptFail 7, Step.retryAfter 8500000000,
       Step.attemptFail 8, Step.retryAfter 12500000000,
       Step.attemptFail 9, Step.retryAfter 19000000000,
       Step.attemptFail 10, Step.retryAfter 28500000000,
       Step.attemptFail 11, Step.disabled] := by
    simp [readdRun, delayNs, pow15floor]
  rw [h, h1]
  refine ⟨by decide, by decide, by decide⟩

/-- Claim C8 as amended. On every remove event the engine immediately
attempts to re-add the watched filename (attempt 0, the first step of the
handling), and then performs the readConfig-then-Notify sequence — the same
pair of steps a modify event performs — exactly once, unconditionally and
immediately after the initial attempt returns, whatever the outcome of that
attempt; the deferred retry chain never performs a readConfig or a Notify, so
a re-add success reached only after backoff retries triggers no reload and no
notification. -/
theorem C8_replace_amended (addOk : Nat → Bool) :
    (replaceRun addOk).take 1
      = [if addOk 0 then Step.attemptOk 0 else Step.attemptFail 0]
    ∧ (replaceRun addOk).count Step.reloadConfig = 1
    ∧ (replaceRun addOk).count Step.notifyCall = 1
    ∧ (∀ a, Step.reloadConfig ∉ readdRun addOk a
        ∧ Step.notifyCall ∉ readdRun addOk a) := by
  refine ⟨?_, ?_, ?_, readd_no_dispatch addOk⟩
  · cases h0 : addOk 0 <;> simp [replaceRun, readdSyncBody, h0]
  · cases h0 : addOk 0
    · have hD := List.count_eq_zero.mpr (readd_no_dispatch addOk 1).1
      simp [replaceRun, readdSyncBody, readdDeferred, h0, List.count_append,
        List.count_cons, hD]
    · simp [replaceRun, readdSyncBody, readdDeferred, h0, List.count_append,
        List.count_cons]
  · cases h0 : addOk 0
    · have hD := List.count_eq_zero.mpr (readd_no_dispatch addOk 1).2
      simp [replaceRun, readdSyncBody, readdDeferred, h0, List.count_append,
        List.count_cons, hD]
    · simp [replaceRun, readdSyncBody, readdDeferred, h0, List.count_append,
        List.count_cons]

/-- Claim C9 counterexample. Aborter 5 is registered twice; when service 0
fails, the abort broadcast invokes it once, not twice — the source returns
from inside the aborter loop after its first iteration, so multiplicity of
registration does not yield multiple Abort calls. -/
theorem C9_counterexample_dup_aborter :
    (Notify false (fun _ => some "x") ⟨[0], [5, 5], false⟩).1
      = [NCall.update 0, NCall.abort 5 "x"]
    ∧ (Notify false (fun _ => some "x") ⟨[0], [5, 5], false⟩).1.count
        (NCall.abort 5 "x") ≠ 2 :=
  ⟨rfl, by decide⟩

/-- Claim C9 as amended. The registries are append-only lists with no
deduplication, so k registrations of the same object yield k list entries.
A consumer registered k times is invoked once per registration, in list
position order, in a Notify call where every consumer succeeds. During an
abort broadcast, however, only the first entry of the aborter list is invoked,
exactly once, regardless of how many times any aborter is registered. -/
theorem C9_registry_amended (n : Notifier) (svcs abs : List Nat)
    (upd : Nat → Option String) (s a : Nat) (e : String) (rest : List Nat) :
    (RegisterServices n svcs).1.services = n.services ++ svcs
    ∧ (RegisterAborters n abs).aborters = n.aborters ++ abs
    ∧ ((∀ t ∈ n.services, upd t = none) →
        (Notify false upd n).1 = n.services.map NCall.update)
    ∧ ((∀ t ∈ n.services, upd t = none) →
        (Notify false upd n).1.count (NCall.update s) = n.services.count s)
    ∧ (n.services = [s] → upd s = some e → n.wantdown = false →
        n.aborters = a :: rest →
        (Notify false upd n).1 = [NCall.update s, NCall.abort a e]) := by
  refine ⟨rfl, rfl, ?_, ?_, ?_⟩
  · intro h
    simp [Notify, notifyLoop_all_ok upd n.aborters n.wantdown n.services h]
  · intro h
    simp only [Notify, notifyLoop_all_ok upd n.aborters n.wantdown n.services h,
      Bool.false_eq_true, if_false, List.nil_append]
    exact List.count_map_of_injective n.services NCall.update
      (fun x y hxy => by injection hxy) s
  · intro hsvc hupd hwd hab
    simp [Notify, hsvc, hab, hwd, notifyLoop, hupd]

/-- Witness for claim C9 at concrete inputs: a service registered twice is
updated twice in a fully successful Notify, and a failing dispatch with a
duplicated aborter invokes only the first aborter entry. -/
theorem C9_registry_amended_witness :
    (Notify false (fun _ => none) ⟨[4, 4], [], false⟩).1
      = [NCall.update 4, NCall.update 4]
    ∧ (Notify false (fun _ => some "e") ⟨[3], [7, 7], false⟩).1
      = [NCall.update 3, NCall.abort 7 "e"] := by
  constructor
  · have h := (C9_registry_amended ⟨[4, 4], [], false⟩ [] [] (fun _ => none)
      4 0 "" []).2.2.1 (fun t _ => rfl)
    simpa using h
  · exact (C9_registry_amended ⟨[3], [7, 7], false⟩ [] [] (fun _ => some "e")
      3 7 "e" [7]).2.2.2.2 rfl rfl rfl rfl

/-- Claim C10 (confirmed). When the loader returns a nil configuration with
no error, readConfig reports success and stores nil as current, so Config
returns nil; and the next readConfig with a successful load behaves exactly
like a first load — it sets the changed list to the single sentinel entry and
its result does not depend on the differ at all (the second call below is
stated for an arbitrary, unrelated differ). -/
theorem C10_nil_config_resets {Cfg : Type}
    (diffFn diffFn2 : Option Cfg → Option Cfg → Except String (List (List String)))
    (ctrl : Control Cfg) (cfg : Option Cfg) :
    (readConfig diffFn (Except.ok none) ctrl).2 = none
    ∧ Config (readConfig diffFn (Except.ok none) ctrl).1 = none
    ∧ readConfig diffFn2 (Except.ok cfg) (readConfig diffFn (Except.ok none) ctrl).1
        = ({ changed := ["*"], current := cfg, previous := none }, none) := by
  obtain ⟨ch, cur, prev⟩ := ctrl
  rcases cur with _ | c
  · simp [readConfig, Config]
  · rcases hd : diffFn (some c) none with e | l
    · simp [readConfig, Config, hd]
    · rcases l with _ | ⟨x, xs⟩
      · simp [readConfig, Config, hd]
      · simp [readConfig, Config, hd]

end Configurer
